import Mathlib

/-!
Verification of the incremental-sync core of `tap_outbrain` (file
`tap_outbrain/__init__.py`) against its natural-language specification.

The embedding models calendar dates as integers (the proleptic Gregorian
day number of a `datetime.date`, see `daysFromCivil`); Python's
`date + timedelta(days = k)` is integer addition and date comparison is
integer comparison, so this mapping is exact.  Record streams, state
writes and log warnings are made explicit as return values; the HTTP
layer is a parameter (a function from a request to its response), since
the remote server is outside the program.
-/

namespace TapOutbrain

/-- Day number of a proleptic Gregorian calendar date (days since
1970-01-01), the standard civil-from-days algorithm.  This is the
embedding of Python `datetime.date(y, m, d)` as an integer; all inputs
used in this development are within the Gregorian range where the three
integer-division conventions agree. -/
def daysFromCivil (y m d : Int) : Int :=
  let y' := if m ≤ 2 then y - 1 else y
  let era := (if 0 ≤ y' then y' else y' - 399) / 400
  let yoe := y' - era * 400
  let mp := if 2 < m then m - 3 else m + 9
  let doy := (153 * mp + 2) / 5 + d - 1
  let doe := yoe * 365 + yoe / 4 - yoe / 100 + doy
  era * 146097 + doe - 719468

/-- Constant `DEFAULT_START_DATE = '2016-08-01'` (source line 40), parsed to a date. -/
def DEFAULT_START_DATE : Int := daysFromCivil 2016 8 1

/-- Constant `TAP_CAMPAIGN_COUNT_ERROR_CEILING = 660` (source line 45). -/
def TAP_CAMPAIGN_COUNT_ERROR_CEILING : Nat := 660

/-- Constant `MARKETERS_CAMPAIGNS_MAX_LIMIT = 50` (source line 46). -/
def MARKETERS_CAMPAIGNS_MAX_LIMIT : Nat := 50

/-- Constant `REPORTS_MARKETERS_PERIODIC_MAX_LIMIT = 500` (source line 49); used both
as the row limit of a report request and as the planner's window length. -/
def REPORTS_MARKETERS_PERIODIC_MAX_LIMIT : Int := 500

/-- The dict `{'from_date': ..., 'to_date': ...}` built by
`get_date_ranges`; both bounds are inclusive day numbers. -/
structure DateRange where
  from_date : Int
  to_date : Int
deriving DecidableEq, Repr

/-- The `while interval_start < end` loop of `get_date_ranges`
(source lines 117-131).  The source iterates as long as
`interval_start < end`, appending a window
`[interval_start, min end (interval_start + interval_in_days - 1)]` and
advancing `interval_start` by `interval_in_days`.  The `1 ≤ I` conjunct
is a termination guard only: for `interval_in_days ≤ 0` the Python loop
never terminates (no claim concerns that case, every caller passes 500). -/
def getDateRangesLoop (s e I : Int) : List DateRange :=
  if _h : 1 ≤ I ∧ s < e then
    ⟨s, min e (s + I - 1)⟩ :: getDateRangesLoop (s + I) e I
  else
    []
termination_by (e - s).toNat
decreasing_by
  simp_wf
  omega

/-- Function `get_date_ranges(start, end, interval_in_days)` (source lines 113-131):
returns `[]` when `start > end`, otherwise runs the window loop. -/
def get_date_ranges (s e I : Int) : List DateRange :=
  if e < s then [] else getDateRangesLoop s e I

/-- One-step unfolding of the planner loop, with the dependent `if`
replaced by a plain `if` for rewriting. -/
theorem getDateRangesLoop_unfold (s e I : Int) :
    getDateRangesLoop s e I =
      if 1 ≤ I ∧ s < e then
        ⟨s, min e (s + I - 1)⟩ :: getDateRangesLoop (s + I) e I
      else [] := by
  rw [getDateRangesLoop]
  split <;> simp_all

/-- Predicate `tiles s e l` says the window list `l` tiles the inclusive day
interval `[s, e]` exactly: the first window starts at `s`, every window
is nonempty (`from_date ≤ to_date`), consecutive windows are contiguous
(the next starts the day after the previous ends, hence no gap and no
overlap), and the last window ends at `e`. -/
def tiles (s e : Int) : List DateRange → Prop
  | [] => False
  | [w] => w.from_date = s ∧ w.from_date ≤ w.to_date ∧ w.to_date = e
  | w :: w' :: l =>
      w.from_date = s ∧ w.from_date ≤ w.to_date ∧
      w'.from_date = w.to_date + 1 ∧ tiles (w.to_date + 1) e (w' :: l)

/-- Windows produced by the loop are pairwise contiguous: each window
starts the day after the previous one ends. -/
theorem getDateRangesLoop_chain (s e I : Int) :
    List.Chain' (fun a b => b.from_date = a.to_date + 1) (getDateRangesLoop s e I) := by
  induction s, e, I using getDateRangesLoop.induct with
  | case2 s e I h =>
    rw [getDateRangesLoop_unfold, if_neg h]
    exact List.chain'_nil
  | case1 s e I h ih =>
    rw [getDateRangesLoop_unfold, if_pos h]
    rw [List.chain'_cons']
    refine ⟨?_, ih⟩
    intro b hb
    rw [getDateRangesLoop_unfold] at hb
    by_cases h2 : 1 ≤ I ∧ s + I < e
    · rw [if_pos h2] at hb
      simp only [List.head?_cons, Option.mem_def, Option.some.injEq] at hb
      subst hb
      simp only
      omega
    · rw [if_neg h2] at hb
      simp at hb

/-- Every window produced by the loop starts no earlier than the loop's
starting day. -/
theorem getDateRangesLoop_from_lb (s e I : Int) :
    ∀ r ∈ getDateRangesLoop s e I, s ≤ r.from_date := by
  induction s, e, I using getDateRangesLoop.induct with
  | case2 s e I h =>
    rw [getDateRangesLoop_unfold, if_neg h]
    simp
  | case1 s e I h ih =>
    rw [getDateRangesLoop_unfold, if_pos h]
    intro r hr
    rcases List.mem_cons.mp hr with hr | hr
    · subst hr; simp
    · have := ih r hr
      omega

/-- The planner's windows are pairwise contiguous. -/
theorem get_date_ranges_chain (s e I : Int) :
    List.Chain' (fun a b => b.from_date = a.to_date + 1) (get_date_ranges s e I) := by
  unfold get_date_ranges
  split
  · exact List.chain'_nil
  · exact getDateRangesLoop_chain s e I

/-- Every planned window starts no earlier than the requested start day. -/
theorem get_date_ranges_from_lb (s e I : Int) :
    ∀ r ∈ get_date_ranges s e I, s ≤ r.from_date := by
  unfold get_date_ranges
  split
  · simp
  · exact getDateRangesLoop_from_lb s e I

/-- Unfolding of `tiles` on the empty list. -/
theorem tiles_nil (s e : Int) : tiles s e [] ↔ False := Iff.rfl

/-- Unfolding of `tiles` on a singleton. -/
theorem tiles_singleton (s e : Int) (w : DateRange) :
    tiles s e [w] ↔ w.from_date = s ∧ w.from_date ≤ w.to_date ∧ w.to_date = e :=
  Iff.rfl

/-- Unfolding of `tiles` on two or more windows. -/
theorem tiles_cons_cons (s e : Int) (w w' : DateRange) (l : List DateRange) :
    tiles s e (w :: w' :: l) ↔
      w.from_date = s ∧ w.from_date ≤ w.to_date ∧
      w'.from_date = w.to_date + 1 ∧ tiles (w.to_date + 1) e (w' :: l) :=
  Iff.rfl

/-- Exact characterization of the loop output as a tiling: for
`1 ≤ I` and `s < e` the windows tile `[s, e']` where `e' = e - 1` when
`I` divides `e - s` (the final day is then left uncovered) and `e' = e`
otherwise. -/
theorem getDateRangesLoop_tiles (s e I : Int) (hI : 1 ≤ I) (hlt : s < e) :
    tiles s (if I ∣ (e - s) then e - 1 else e) (getDateRangesLoop s e I) := by
  induction s, e, I using getDateRangesLoop.induct with
  | case2 s e I h =>
    exact absurd ⟨hI, hlt⟩ h
  | case1 s e I h ih =>
    clear hI hlt
    rw [getDateRangesLoop_unfold, if_pos h]
    by_cases h2 : s + I < e
    · -- at least one further window follows
      have htail : getDateRangesLoop (s + I) e I =
          ⟨s + I, min e (s + I + I - 1)⟩ :: getDateRangesLoop (s + I + I) e I := by
        rw [getDateRangesLoop_unfold (s + I), if_pos ⟨h.1, h2⟩]
      have hshift : I ∣ (e - (s + I)) ↔ I ∣ (e - s) := by
        constructor
        · intro hx
          have heq : e - s = (e - (s + I)) + I := by ring
          rw [heq]
          exact dvd_add hx dvd_rfl
        · intro hx
          have heq : e - (s + I) = (e - s) - I := by ring
          rw [heq]
          exact dvd_sub hx dvd_rfl
      have ih' := ih h.1 h2
      have hmin : min e (s + I - 1) = s + I - 1 := by omega
      rw [htail] at ih' ⊢
      rw [hmin, tiles_cons_cons]
      by_cases hd : I ∣ (e - s)
      · rw [if_pos (hshift.mpr hd)] at ih'
        rw [if_pos hd]
        refine ⟨rfl, ?_, ?_, ?_⟩
        · show s ≤ s + I - 1
          omega
        · show s + I = s + I - 1 + 1
          omega
        · have heq : s + I - 1 + 1 = s + I := by ring
          rw [heq]
          exact ih'
      · rw [if_neg (fun hx => hd (hshift.mp hx))] at ih'
        rw [if_neg hd]
        refine ⟨rfl, ?_, ?_, ?_⟩
        · show s ≤ s + I - 1
          omega
        · show s + I = s + I - 1 + 1
          omega
        · have heq : s + I - 1 + 1 = s + I := by ring
          rw [heq]
          exact ih'
    · -- this is the final window
      have htail : getDateRangesLoop (s + I) e I = [] := by
        rw [getDateRangesLoop_unfold, if_neg]
        intro hc
        exact h2 hc.2
      rw [htail, tiles_singleton]
      by_cases hd : I ∣ (e - s)
      · have hle : I ≤ e - s := Int.le_of_dvd (by omega) hd
        rw [if_pos hd]
        refine ⟨rfl, ?_, ?_⟩
        · show s ≤ min e (s + I - 1)
          omega
        · show min e (s + I - 1) = e - 1
          omega
      · have hne : e ≠ s + I := by
          rintro rfl
          exact hd ⟨1, by ring⟩
        rw [if_neg hd]
        refine ⟨rfl, ?_, ?_⟩
        · show s ≤ min e (s + I - 1)
          omega
        · show min e (s + I - 1) = e
          omega

/-- C1 as stated is false already at `start_date = end_date`: the source
loop `while interval_start < end` (line 120) never runs, so
`get_date_ranges` returns the empty list, which tiles nothing. -/
theorem C1_counterexample :
    (0 : Int) ≤ 0 ∧ (1 : Int) ≥ 1 ∧
      get_date_ranges 0 0 1 = [] ∧ ¬ tiles 0 0 (get_date_ranges 0 0 1) := by
  have h : get_date_ranges 0 0 1 = [] := by
    unfold get_date_ranges
    rw [if_neg (by omega), getDateRangesLoop_unfold, if_neg (by omega)]
  refine ⟨le_refl 0, le_refl 1, h, ?_⟩
  rw [h]
  simp [tiles]

/-- C1 (amended): for `start_date ≤ end_date` and `window_days ≥ 1` the
planner returns the empty sequence when `start_date = end_date`; when
`start_date < end_date` its windows are non-overlapping and contiguous
with no gaps, the first window's `from_date` equals `start_date`, and
the last window's `to_date` equals `end_date` except when `window_days`
divides `end_date - start_date` exactly, in which case the last window
ends at `end_date - 1` and the final day is not covered. -/
theorem C1_theorem (s e I : Int) (hse : s ≤ e) (hI : 1 ≤ I) :
    (s = e → get_date_ranges s e I = []) ∧
    (s < e → tiles s (if I ∣ (e - s) then e - 1 else e) (get_date_ranges s e I)) := by
  constructor
  · rintro rfl
    unfold get_date_ranges
    rw [if_neg (by omega), getDateRangesLoop_unfold, if_neg (by omega)]
  · intro hlt
    unfold get_date_ranges
    rw [if_neg (show ¬ e < s by omega)]
    exact getDateRangesLoop_tiles s e I hI hlt

/-- Witness for `C1_theorem` at `s = 0`, `e = 5`, `I = 2`. -/
theorem C1_witness :
    ((0 : Int) ≤ 5 ∧ (1 : Int) ≤ 2) ∧
      (((0 : Int) = 5 → get_date_ranges 0 5 2 = []) ∧
       ((0 : Int) < 5 →
         tiles 0 (if (2 : Int) ∣ (5 - 0) then 5 - 1 else 5) (get_date_ranges 0 5 2))) :=
  ⟨⟨by omega, by omega⟩, C1_theorem 0 5 2 (by omega) (by omega)⟩

/-- C9: for `start_date > end_date` the planner returns the empty
sequence; it is a total function, so no error can be raised. -/
theorem C9_theorem (s e I : Int) (h : e < s) : get_date_ranges s e I = [] := by
  unfold get_date_ranges
  rw [if_pos h]

/-- Witness for `C9_theorem` at `s = 1`, `e = 0`, `I = 5`. -/
theorem C9_witness : (0 : Int) < 1 ∧ get_date_ranges 1 0 5 = [] :=
  ⟨by omega, C9_theorem 1 0 5 (by omega)⟩

/-! ## Paginator with ceiling guard (`get_campaign_pages`, source lines 260-283) -/

/-- One page of the campaign listing endpoint: the JSON body returned by
`get_campaigns_page` with its `totalCount` field and its `campaigns`
array (the campaign payloads themselves are opaque to the paginator and
are modelled as natural numbers). -/
structure CampaignPage where
  totalCount : Nat
  campaigns : List Nat
deriving DecidableEq, Repr

/-- The error raised at source line 273 when `totalCount` exceeds
`TAP_CAMPAIGN_COUNT_ERROR_CEILING`. -/
inductive PageError where
  | tooManyCampaigns
deriving DecidableEq, Repr

/-- The `while more_campaigns` loop of `get_campaign_pages` (source
lines 264-280), with the remote endpoint abstracted as `pageAt`
(offset ↦ response page) and the page-size constant
`MARKETERS_CAMPAIGNS_MAX_LIMIT` generalized to `limit`.  The result is
the list of pages yielded by the generator, paired with the error if the
ceiling guard tripped.  Source order per iteration: fetch the page at
`offset`; if `TAP_CAMPAIGN_COUNT_ERROR_CEILING < totalCount` raise
(before yielding); otherwise yield the page; continue at
`offset + limit` while `offset + limit < totalCount`.  The `1 ≤ limit`
conjunct is a termination guard only: for `limit = 0` the Python loop
never terminates when `0 < totalCount` (the source always uses 50). -/
def getCampaignPagesLoop (pageAt : Nat → CampaignPage) (limit offset : Nat) :
    List CampaignPage × Option PageError :=
  if _h0 : TAP_CAMPAIGN_COUNT_ERROR_CEILING < (pageAt offset).totalCount then
    ([], some PageError.tooManyCampaigns)
  else if _h1 : offset + limit < (pageAt offset).totalCount ∧ 1 ≤ limit then
    let rest := getCampaignPagesLoop pageAt limit (offset + limit)
    (pageAt offset :: rest.1, rest.2)
  else
    ([pageAt offset], none)
termination_by TAP_CAMPAIGN_COUNT_ERROR_CEILING + 1 - offset
decreasing_by
  simp_wf
  unfold TAP_CAMPAIGN_COUNT_ERROR_CEILING at _h0 ⊢
  omega

/-- Function `get_campaign_pages(account_id, access_token)`: the paginator driven
from offset 0. -/
def get_campaign_pages (pageAt : Nat → CampaignPage) (limit : Nat) :
    List CampaignPage × Option PageError :=
  getCampaignPagesLoop pageAt limit 0

/-- The synthetic listing of the spec's pagination property: a fixed
item list served through offset/limit slicing, with `totalCount` always
the full item count (the behaviour `get_campaigns_page` relies on from
the remote endpoint). -/
def syntheticListing (items : List Nat) (limit : Nat) : Nat → CampaignPage :=
  fun offset => ⟨items.length, (items.drop offset).take limit⟩

/-- One-step unfolding of the paginator loop with plain `if`s. -/
theorem getCampaignPagesLoop_unfold (pageAt : Nat → CampaignPage) (limit offset : Nat) :
    getCampaignPagesLoop pageAt limit offset =
      if TAP_CAMPAIGN_COUNT_ERROR_CEILING < (pageAt offset).totalCount then
        ([], some PageError.tooManyCampaigns)
      else if offset + limit < (pageAt offset).totalCount ∧ 1 ≤ limit then
        ((pageAt offset) :: (getCampaignPagesLoop pageAt limit (offset + limit)).1,
         (getCampaignPagesLoop pageAt limit (offset + limit)).2)
      else
        ([pageAt offset], none) := by
  rw [getCampaignPagesLoop]
  split
  · simp_all
  · split <;> simp_all

/-- Loop invariant for the synthetic listing: starting from any offset,
when the total count respects the ceiling and the page size is positive,
the loop succeeds, yields `(N - offset - 1) / limit + 1` pages, and the
concatenation of the yielded pages' items is exactly the items from
`offset` on. -/
theorem getCampaignPagesLoop_synthetic (items : List Nat) (limit : Nat)
    (hP : 1 ≤ limit) (hceil : items.length ≤ TAP_CAMPAIGN_COUNT_ERROR_CEILING) :
    ∀ fuel offset, items.length - offset ≤ fuel →
      (getCampaignPagesLoop (syntheticListing items limit) limit offset).2 = none ∧
      (getCampaignPagesLoop (syntheticListing items limit) limit offset).1.length
        = (items.length - offset - 1) / limit + 1 ∧
      ((getCampaignPagesLoop (syntheticListing items limit) limit offset).1.map
          CampaignPage.campaigns).flatten = items.drop offset := by
  intro fuel
  induction fuel with
  | zero =>
    intro offset hfuel
    have hoff : items.length ≤ offset := by omega
    rw [getCampaignPagesLoop_unfold]
    rw [if_neg (show ¬ TAP_CAMPAIGN_COUNT_ERROR_CEILING <
          (syntheticListing items limit offset).totalCount by
        simp [syntheticListing]
        omega)]
    rw [if_neg (show ¬ ((offset + limit < (syntheticListing items limit offset).totalCount)
          ∧ 1 ≤ limit) by
        simp [syntheticListing]
        omega)]
    refine ⟨rfl, ?_, ?_⟩
    · simp only [List.length_singleton]
      have : items.length - offset - 1 = 0 := by omega
      rw [this]
      simp [Nat.zero_div]
    · simp only [List.map_cons, List.map_nil, List.flatten_cons, List.flatten_nil,
        List.append_nil, syntheticListing]
      rw [List.drop_eq_nil_of_le hoff, List.take_nil]
  | succ fuel ih =>
    intro offset hfuel
    rw [getCampaignPagesLoop_unfold]
    rw [if_neg (show ¬ TAP_CAMPAIGN_COUNT_ERROR_CEILING <
          (syntheticListing items limit offset).totalCount by
        simp [syntheticListing]
        omega)]
    by_cases hcont : offset + limit < (syntheticListing items limit offset).totalCount ∧ 1 ≤ limit
    · rw [if_pos hcont]
      have hN : offset + limit < items.length := by
        simpa [syntheticListing] using hcont.1
      have ihl := ih (offset + limit) (by omega)
      refine ⟨ihl.1, ?_, ?_⟩
      · simp only [List.length_cons, ihl.2.1]
        have hstep : items.length - offset - 1 = (items.length - (offset + limit) - 1) + limit := by
          omega
        rw [hstep, Nat.add_div_right _ hP]
      · simp only [List.map_cons, List.flatten_cons, ihl.2.2, syntheticListing]
        rw [← List.drop_drop, List.take_append_drop]
    · rw [if_neg hcont]
      have hend : items.length ≤ offset + limit := by
        simp [syntheticListing] at hcont
        omega
      refine ⟨rfl, ?_, ?_⟩
      · simp only [List.length_singleton]
        have : (items.length - offset - 1) / limit = 0 :=
          Nat.div_eq_of_lt (by omega)
        rw [this]
      · simp only [List.map_cons, List.map_nil, List.flatten_cons, List.flatten_nil,
        List.append_nil, syntheticListing]
        apply List.take_of_length_le
        rw [List.length_drop]
        omega

/-- C3 as stated is false at `N = 0`: the generator's `while` loop tests
`more_campaigns` only after having fetched and yielded a page, so an
empty listing still yields one page, while `ceil(0 / P) = 0`. -/
theorem C3_counterexample :
    (get_campaign_pages (syntheticListing [] MARKETERS_CAMPAIGNS_MAX_LIMIT)
        MARKETERS_CAMPAIGNS_MAX_LIMIT).1.length = 1 ∧
    (([] : List Nat).length + MARKETERS_CAMPAIGNS_MAX_LIMIT - 1)
        / MARKETERS_CAMPAIGNS_MAX_LIMIT = 0 ∧
    ¬ (get_campaign_pages (syntheticListing [] MARKETERS_CAMPAIGNS_MAX_LIMIT)
        MARKETERS_CAMPAIGNS_MAX_LIMIT).1.length
      = (([] : List Nat).length + MARKETERS_CAMPAIGNS_MAX_LIMIT - 1)
        / MARKETERS_CAMPAIGNS_MAX_LIMIT := by
  have h : get_campaign_pages (syntheticListing [] MARKETERS_CAMPAIGNS_MAX_LIMIT)
      MARKETERS_CAMPAIGNS_MAX_LIMIT = ([⟨0, []⟩], none) := by
    unfold get_campaign_pages
    rw [getCampaignPagesLoop_unfold]
    rw [if_neg (by simp [syntheticListing, TAP_CAMPAIGN_COUNT_ERROR_CEILING])]
    rw [if_neg (by simp [syntheticListing])]
    simp [syntheticListing]
  rw [h]
  refine ⟨rfl, by simp [MARKETERS_CAMPAIGNS_MAX_LIMIT], by simp [MARKETERS_CAMPAIGNS_MAX_LIMIT]⟩

/-- C3 (amended): for a synthetic listing with `totalCount = N` items
within the configured ceiling and page size `P ≥ 1`, the paginator
succeeds and yields exactly `max 1 ⌈N / P⌉` pages — `⌈N / P⌉` pages for
`N ≥ 1`, and a single empty page for `N = 0` — and the concatenation of
all yielded pages' items is exactly the item list (in particular it has
length `N`).  Offsets start at 0 and advance by `P` while
`offset + P < totalCount`, as in the source. -/
theorem C3_theorem (items : List Nat) (P : Nat) (hP : 1 ≤ P)
    (hceil : items.length ≤ TAP_CAMPAIGN_COUNT_ERROR_CEILING) :
    (get_campaign_pages (syntheticListing items P) P).2 = none ∧
    (get_campaign_pages (syntheticListing items P) P).1.length
      = max 1 ((items.length + P - 1) / P) ∧
    ((get_campaign_pages (syntheticListing items P) P).1.map
        CampaignPage.campaigns).flatten = items ∧
    ((get_campaign_pages (syntheticListing items P) P).1.map
        CampaignPage.campaigns).flatten.length = items.length := by
  have h := getCampaignPagesLoop_synthetic items P hP hceil items.length 0 (by omega)
  unfold get_campaign_pages
  simp only [List.drop_zero] at h
  refine ⟨h.1, ?_, h.2.2, by rw [h.2.2]⟩
  rw [h.2.1]
  rcases Nat.eq_zero_or_pos items.length with hN | hN
  · rw [hN]
    have h1 : (0 - 0 - 1) / P + 1 = 1 := by
      simp
    have h2 : (0 + P - 1) / P = 0 := Nat.div_eq_of_lt (by omega)
    rw [h1, h2]
    omega
  · have h1 : items.length + P - 1 = (items.length - 0 - 1) + P := by omega
    rw [h1, Nat.add_div_right _ hP, Nat.max_eq_right (Nat.le_add_left 1 _)]

/-- Witness for `C3_theorem` at a listing of 120 items with page size 50. -/
theorem C3_witness :
    (1 ≤ 50 ∧ (List.range 120).length ≤ TAP_CAMPAIGN_COUNT_ERROR_CEILING) ∧
    ((get_campaign_pages (syntheticListing (List.range 120) 50) 50).2 = none ∧
     (get_campaign_pages (syntheticListing (List.range 120) 50) 50).1.length
       = max 1 (((List.range 120).length + 50 - 1) / 50) ∧
     ((get_campaign_pages (syntheticListing (List.range 120) 50) 50).1.map
         CampaignPage.campaigns).flatten = List.range 120 ∧
     ((get_campaign_pages (syntheticListing (List.range 120) 50) 50).1.map
         CampaignPage.campaigns).flatten.length = (List.range 120).length) :=
  ⟨⟨by omega, by simp [TAP_CAMPAIGN_COUNT_ERROR_CEILING]⟩,
   C3_theorem (List.range 120) 50 (by omega) (by simp [TAP_CAMPAIGN_COUNT_ERROR_CEILING])⟩

/-- C4: whenever the page fetched at some offset reports a `totalCount`
above `TAP_CAMPAIGN_COUNT_ERROR_CEILING = 660`, the paginator raises
before yielding anything of that page: the generator's remaining output
is empty and an error is signalled, so it neither truncates silently nor
continues. -/
theorem C4_theorem (pageAt : Nat → CampaignPage) (limit offset : Nat)
    (h : TAP_CAMPAIGN_COUNT_ERROR_CEILING < (pageAt offset).totalCount) :
    getCampaignPagesLoop pageAt limit offset = ([], some PageError.tooManyCampaigns) := by
  rw [getCampaignPagesLoop_unfold, if_pos h]

/-- Witness for `C4_theorem`: a listing reporting 661 campaigns trips the
guard at offset 0 before any page is yielded. -/
theorem C4_witness :
    TAP_CAMPAIGN_COUNT_ERROR_CEILING < (661 : Nat) ∧
    get_campaign_pages (fun _ => ⟨661, []⟩) MARKETERS_CAMPAIGNS_MAX_LIMIT
      = ([], some PageError.tooManyCampaigns) :=
  ⟨by simp [TAP_CAMPAIGN_COUNT_ERROR_CEILING],
   C4_theorem (fun _ => ⟨661, []⟩) MARKETERS_CAMPAIGNS_MAX_LIMIT 0
     (by simp [TAP_CAMPAIGN_COUNT_ERROR_CEILING])⟩

/-! ## Performance sync (`sync_performance`, source lines 145-238)

The HTTP report endpoint is abstracted as a function from the requested
date window to the JSON body it returns; the state cell
`state[table_name][state_sub_id]` is modelled as an `Option Int` cursor
(`none` when absent, in which case the source falls back to
`DEFAULT_START_DATE`).  Records written with `singer.write_record`, the
successive cursor values written to the state cell (each followed by
`singer.write_state`), and warning-level log lines are collected in a
`SyncOutcome`; an uncaught Python exception is an `error` value. -/

/-- The `metrics` sub-dict of one report row; every field is read with
`metrics.get(..., default)` in the source, hence optional here. -/
structure RawMetrics where
  impressions : Option Int
  clicks : Option Int
  ctr : Option Rat
  spend : Option Rat
  ecpc : Option Rat
  conversions : Option Int
  conversionRate : Option Rat
  cpa : Option Rat
deriving DecidableEq, Repr

/-- The `metadata` sub-dict of one report row.  `fromDate` is read with
`metadata.get('fromDate')`; it is modelled as present, which is the only
case any claim exercises (an absent value would be copied through as a
null cursor). -/
structure RawMetadata where
  fromDate : Int
deriving DecidableEq, Repr

/-- One element of the report response's `results` array;
`result.get('metrics', {})` makes the metrics dict optional. -/
structure RawResult where
  metrics : Option RawMetrics
  metadata : RawMetadata
deriving DecidableEq, Repr

/-- The `{}` default of `result.get('metrics', {})`. -/
def emptyMetrics : RawMetrics := ⟨none, none, none, none, none, none, none, none⟩

/-- The row dict built by `parse_performance` (source lines 93-110).
The caller-supplied `extra_persist_fields` (e.g. `campaignId`) are
copied into the dict unchanged and never read by the sync logic, so they
are not modelled. -/
structure PerfRecord where
  fromDate : Int
  impressions : Int
  clicks : Int
  ctr : Rat
  spend : Rat
  ecpc : Rat
  conversions : Int
  conversionRate : Rat
  cpa : Rat
deriving DecidableEq, Repr

/-- Function `parse_performance(result, extra_fields)` (source lines 93-110). -/
def parse_performance (result : RawResult) : PerfRecord :=
  let metrics := result.metrics.getD emptyMetrics
  { fromDate := result.metadata.fromDate
    impressions := metrics.impressions.getD 0
    clicks := metrics.clicks.getD 0
    ctr := metrics.ctr.getD 0
    spend := metrics.spend.getD 0
    ecpc := metrics.ecpc.getD 0
    conversions := metrics.conversions.getD 0
    conversionRate := metrics.conversionRate.getD 0
    cpa := metrics.cpa.getD 0 }

/-- The JSON body of one report request: its `totalResults` field (absent
in malformed responses) and its `results` array. -/
structure ReportResponse where
  totalResults : Option Int
  results : List RawResult
deriving DecidableEq, Repr

/-- Uncaught Python exceptions of the window loop:
`typeError` is the `int < NoneType` comparison at source line 205 when
`totalResults` is absent; `indexError` is `performance[-1]` at source
line 223 when the parsed row list is empty. -/
inductive SyncError where
  | typeError
  | indexError
deriving DecidableEq, Repr

/-- Observable outcome of the window loop of `sync_performance`:
records emitted in order, successive values written to the state cell,
number of warning-level log lines, and the exception that aborted the
loop, if any. -/
structure SyncOutcome where
  records : List PerfRecord
  stateWrites : List Int
  warnings : Nat
  error : Option SyncError
deriving DecidableEq, Repr

/-- The `for date_range in date_ranges` loop of `sync_performance`
(source lines 182-238).  Per window: request the report
(`responses r`); compare `REPORTS_MARKETERS_PERIODIC_MAX_LIMIT` with
`totalResults` (a `TypeError` when the field is absent; a warning log
when the limit is exceeded); parse all rows; write each record; take
`performance[-1]` (an `IndexError` on an empty window); write the last
row's `fromDate` to the state cell and persist state; continue.  An
exception aborts the whole loop, leaving earlier windows' records and
state writes in place. -/
def syncPerfLoop (responses : DateRange → ReportResponse) :
    List DateRange → SyncOutcome
  | [] => ⟨[], [], 0, none⟩
  | r :: rest =>
    match (responses r).totalResults with
    | none => ⟨[], [], 0, some SyncError.typeError⟩
    | some t =>
      let warn : Nat := if REPORTS_MARKETERS_PERIODIC_MAX_LIMIT < t then 1 else 0
      let performance := (responses r).results.map parse_performance
      match performance.getLast? with
      | none => ⟨[], [], warn, some SyncError.indexError⟩
      | some last =>
        let out := syncPerfLoop responses rest
        ⟨performance ++ out.records, last.fromDate :: out.stateWrites,
          warn + out.warnings, out.error⟩

/-- The resume point computed at source lines 169-172: the stored cursor
(or `DEFAULT_START_DATE` when absent) minus the fixed 2-day re-fetch
overlap. -/
def effective_from_date (cursor : Option Int) : Int :=
  cursor.getD DEFAULT_START_DATE - 2

/-- Function `sync_performance` (source lines 145-238): plan the windows from the
resume point up to today with the 500-day maximum window, then run the
window loop. -/
def sync_performance (cursor : Option Int) (today : Int)
    (responses : DateRange → ReportResponse) : SyncOutcome :=
  syncPerfLoop responses
    (get_date_ranges (effective_from_date cursor) today
      REPORTS_MARKETERS_PERIODIC_MAX_LIMIT)

/-- Unfolding of the window loop when `totalResults` is absent: the
`REPORTS_MARKETERS_PERIODIC_MAX_LIMIT < None` comparison raises a
`TypeError` before any row of the window is parsed or written. -/
theorem syncPerfLoop_cons_none (responses : DateRange → ReportResponse)
    (r : DateRange) (rest : List DateRange)
    (h : (responses r).totalResults = none) :
    syncPerfLoop responses (r :: rest) = ⟨[], [], 0, some SyncError.typeError⟩ := by
  simp only [syncPerfLoop, h]

/-- Unfolding of the window loop on an empty `results` array:
`performance[-1]` raises an `IndexError` after the warning check but
before any record or state write. -/
theorem syncPerfLoop_cons_empty (responses : DateRange → ReportResponse)
    (r : DateRange) (rest : List DateRange) (t : Int)
    (h : (responses r).totalResults = some t)
    (h2 : (responses r).results = []) :
    syncPerfLoop responses (r :: rest) =
      ⟨[], [], if REPORTS_MARKETERS_PERIODIC_MAX_LIMIT < t then 1 else 0,
        some SyncError.indexError⟩ := by
  simp only [syncPerfLoop, h, h2, List.map_nil, List.getLast?_nil]

/-- Unfolding of the window loop on a successfully processed window. -/
theorem syncPerfLoop_cons_some (responses : DateRange → ReportResponse)
    (r : DateRange) (rest : List DateRange) (t : Int) (last : PerfRecord)
    (h : (responses r).totalResults = some t)
    (h2 : ((responses r).results.map parse_performance).getLast? = some last) :
    syncPerfLoop responses (r :: rest) =
      ⟨(responses r).results.map parse_performance
          ++ (syncPerfLoop responses rest).records,
        last.fromDate :: (syncPerfLoop responses rest).stateWrites,
        (if REPORTS_MARKETERS_PERIODIC_MAX_LIMIT < t then 1 else 0)
          + (syncPerfLoop responses rest).warnings,
        (syncPerfLoop responses rest).error⟩ := by
  simp only [syncPerfLoop, h, h2]

/-- A window writes to the state cell exactly when it emits records, and
the last state write always equals the `fromDate` of the last emitted
record. -/
theorem syncPerfLoop_last_write (responses : DateRange → ReportResponse) :
    ∀ ranges : List DateRange,
      ((syncPerfLoop responses ranges).stateWrites = []
          ↔ (syncPerfLoop responses ranges).records = []) ∧
      (syncPerfLoop responses ranges).stateWrites.getLast?
        = ((syncPerfLoop responses ranges).records.getLast?).map PerfRecord.fromDate := by
  intro ranges
  induction ranges with
  | nil => simp [syncPerfLoop]
  | cons r rest ih =>
    rcases hT : (responses r).totalResults with _ | t
    · rw [syncPerfLoop_cons_none responses r rest hT]
      simp
    · rcases hL : ((responses r).results.map parse_performance).getLast? with _ | last
      · have hres : (responses r).results = [] :=
          List.map_eq_nil_iff.mp (List.getLast?_eq_none_iff.mp hL)
        rw [syncPerfLoop_cons_empty responses r rest t hT hres]
        simp
      · rw [syncPerfLoop_cons_some responses r rest t last hT hL]
        have hperfne : (responses r).results.map parse_performance ≠ [] := by
          intro hc
          rw [hc] at hL
          simp at hL
        constructor
        · simp [hperfne]
        · rcases hws : (syncPerfLoop responses rest).stateWrites with _ | ⟨w, ws⟩
          · have hrec : (syncPerfLoop responses rest).records = [] := ih.1.mp hws
            simp only [hrec, List.append_nil, hws, hL]
            simp
          · have hrecne : (syncPerfLoop responses rest).records ≠ [] := by
              intro hc
              have := ih.1.mpr hc
              rw [hws] at this
              exact List.noConfusion this
            simp only [List.getLast?_append_of_ne_nil _ hrecne]
            rw [List.getLast?_cons_cons, ← hws, ih.2]

/-- When the first window's rows all carry a `fromDate` at or after the
window's start, the first state write (if any) is at or after the
window's start. -/
theorem syncPerfLoop_head_write_lb (responses : DateRange → ReportResponse)
    (r : DateRange) (rest : List DateRange)
    (hr : ∀ row ∈ (responses r).results, r.from_date ≤ row.metadata.fromDate) :
    ∀ w, (syncPerfLoop responses (r :: rest)).stateWrites.head? = some w →
      r.from_date ≤ w := by
  intro w hw
  rcases hT : (responses r).totalResults with _ | t
  · rw [syncPerfLoop_cons_none responses r rest hT] at hw
    simp at hw
  · rcases hL : ((responses r).results.map parse_performance).getLast? with _ | last
    · have hres : (responses r).results = [] :=
        List.map_eq_nil_iff.mp (List.getLast?_eq_none_iff.mp hL)
      rw [syncPerfLoop_cons_empty responses r rest t hT hres] at hw
      simp at hw
    · rw [syncPerfLoop_cons_some responses r rest t last hT hL] at hw
      simp only [List.head?_cons, Option.some.injEq] at hw
      subst hw
      have hlast : last ∈ (responses r).results.map parse_performance :=
        List.mem_of_getLast?_eq_some hL
      rcases List.mem_map.mp hlast with ⟨row, hrow, hparse⟩
      have hfd : (parse_performance row).fromDate = row.metadata.fromDate := rfl
      rw [← hparse, hfd]
      exact hr row hrow

/-- When every processed window's rows lie inside the window's bounds
and the windows are contiguous in ascending order, the successive state
writes are strictly increasing. -/
theorem syncPerfLoop_writes_chain (responses : DateRange → ReportResponse) :
    ∀ ranges : List DateRange,
      List.Chain' (fun a b => b.from_date = a.to_date + 1) ranges →
      (∀ r ∈ ranges, ∀ row ∈ (responses r).results,
        r.from_date ≤ row.metadata.fromDate ∧ row.metadata.fromDate ≤ r.to_date) →
      List.Chain' (· < ·) (syncPerfLoop responses ranges).stateWrites := by
  intro ranges
  induction ranges with
  | nil =>
    intro _ _
    simp [syncPerfLoop]
  | cons r rest ih =>
    intro hchain hin
    rcases hT : (responses r).totalResults with _ | t
    · rw [syncPerfLoop_cons_none responses r rest hT]
      simp
    · rcases hL : ((responses r).results.map parse_performance).getLast? with _ | last
      · have hres : (responses r).results = [] :=
          List.map_eq_nil_iff.mp (List.getLast?_eq_none_iff.mp hL)
        rw [syncPerfLoop_cons_empty responses r rest t hT hres]
        simp
      · rw [syncPerfLoop_cons_some responses r rest t last hT hL]
        rw [List.chain'_cons']
        refine ⟨?_, ih (List.chain'_cons'.mp hchain).2
          (fun r' hr' row hrow => hin r' (List.mem_cons_of_mem _ hr') row hrow)⟩
        intro b hb
        rw [Option.mem_def] at hb
        have hdle : last.fromDate ≤ r.to_date := by
          have hlast : last ∈ (responses r).results.map parse_performance :=
            List.mem_of_getLast?_eq_some hL
          rcases List.mem_map.mp hlast with ⟨row, hrow, hparse⟩
          have hfd : (parse_performance row).fromDate = row.metadata.fromDate := rfl
          rw [← hparse, hfd]
          exact (hin r (List.mem_cons_self r rest) row hrow).2
        rcases rest with _ | ⟨r', rest'⟩
        · simp [syncPerfLoop] at hb
        · have hblb : r'.from_date ≤ b :=
            syncPerfLoop_head_write_lb responses r' rest'
              (fun row hrow => (hin r' (List.mem_cons_of_mem _ (List.mem_cons_self r' rest'))
                row hrow).1) b hb
          have hcont : r'.from_date = r.to_date + 1 :=
            (List.chain'_cons.mp hchain).1
          omega

/-- Every state write is at or after the planner's start day, provided
every window starts at or after it and rows lie within their window. -/
theorem syncPerfLoop_writes_lb (responses : DateRange → ReportResponse) (lb : Int) :
    ∀ ranges : List DateRange,
      (∀ r ∈ ranges, lb ≤ r.from_date) →
      (∀ r ∈ ranges, ∀ row ∈ (responses r).results,
        r.from_date ≤ row.metadata.fromDate) →
      ∀ w ∈ (syncPerfLoop responses ranges).stateWrites, lb ≤ w := by
  intro ranges
  induction ranges with
  | nil =>
    intro _ _
    simp [syncPerfLoop]
  | cons r rest ih =>
    intro hlb hin
    rcases hT : (responses r).totalResults with _ | t
    · rw [syncPerfLoop_cons_none responses r rest hT]
      simp
    · rcases hL : ((responses r).results.map parse_performance).getLast? with _ | last
      · have hres : (responses r).results = [] :=
          List.map_eq_nil_iff.mp (List.getLast?_eq_none_iff.mp hL)
        rw [syncPerfLoop_cons_empty responses r rest t hT hres]
        simp
      · rw [syncPerfLoop_cons_some responses r rest t last hT hL]
        intro w hw
        rcases List.mem_cons.mp hw with hw | hw
        · subst hw
          have hlast : last ∈ (responses r).results.map parse_performance :=
            List.mem_of_getLast?_eq_some hL
          rcases List.mem_map.mp hlast with ⟨row, hrow, hparse⟩
          have hfd : (parse_performance row).fromDate = row.metadata.fromDate := rfl
          rw [← hparse, hfd]
          have := hin r (List.mem_cons_self r rest) row hrow
          have := hlb r (List.mem_cons_self r rest)
          omega
        · exact ih (fun r' hr' => hlb r' (List.mem_cons_of_mem _ hr'))
            (fun r' hr' row hrow => hin r' (List.mem_cons_of_mem _ hr') row hrow) w hw

/-- C2 as stated is false: the cursor can be rewound.  With a stored
cursor at day 100 and today = day 101, the planner starts the single
window at day 98 (the 2-day re-fetch overlap), and a response whose only
row is dated day 98 — inside the window's bounds — makes the code write
98 to the state cell, an earlier date than the 100 it already held. -/
theorem C2_counterexample :
    (sync_performance (some 100) 101
        (fun _ => ⟨some 1, [⟨none, ⟨98⟩⟩]⟩)).stateWrites = [98] ∧
    (98 : Int) < 100 := by
  have hr : get_date_ranges 98 101 REPORTS_MARKETERS_PERIODIC_MAX_LIMIT
      = [⟨98, 101⟩] := by
    unfold REPORTS_MARKETERS_PERIODIC_MAX_LIMIT get_date_ranges
    rw [if_neg (by norm_num), getDateRangesLoop_unfold, if_pos (by norm_num),
      getDateRangesLoop_unfold, if_neg (by norm_num)]
    decide
  have hout : sync_performance (some 100) 101
      (fun _ => ⟨some 1, [⟨none, ⟨98⟩⟩]⟩)
      = ⟨[⟨98, 0, 0, 0, 0, 0, 0, 0, 0⟩], [98], 0, none⟩ := by
    unfold sync_performance
    rw [show effective_from_date (some 100) = 98 from rfl, hr]
    decide
  rw [hout]
  exact ⟨rfl, by norm_num⟩

/-- C2 (amended): after `sync_performance` processes its windows in
ascending date order, the stored cursor always equals the `fromDate` of
the last emitted record; and provided every window's response rows carry
`fromDate` within that window's bounds, the successive cursor writes are
strictly increasing and none is earlier than the effective start —
the previously held cursor minus the 2-day re-fetch overlap.  The first
write may therefore be up to 2 days earlier than the value the cell
already held (as `C2_counterexample` shows), but never more. -/
theorem C2_theorem (cursor : Option Int) (today : Int)
    (responses : DateRange → ReportResponse)
    (hin : ∀ r ∈ get_date_ranges (effective_from_date cursor) today
        REPORTS_MARKETERS_PERIODIC_MAX_LIMIT,
      ∀ row ∈ (responses r).results,
        r.from_date ≤ row.metadata.fromDate ∧ row.metadata.fromDate ≤ r.to_date) :
    (sync_performance cursor today responses).stateWrites.getLast?
      = ((sync_performance cursor today responses).records.getLast?).map
          PerfRecord.fromDate ∧
    List.Chain' (· < ·) (sync_performance cursor today responses).stateWrites ∧
    ∀ w ∈ (sync_performance cursor today responses).stateWrites,
      effective_from_date cursor ≤ w := by
  unfold sync_performance
  refine ⟨(syncPerfLoop_last_write responses _).2, ?_, ?_⟩
  · exact syncPerfLoop_writes_chain responses _
      (get_date_ranges_chain (effective_from_date cursor) today
        REPORTS_MARKETERS_PERIODIC_MAX_LIMIT) hin
  · exact syncPerfLoop_writes_lb responses (effective_from_date cursor) _
      (get_date_ranges_from_lb (effective_from_date cursor) today
        REPORTS_MARKETERS_PERIODIC_MAX_LIMIT)
      (fun r hr row hrow => (hin r hr row hrow).1)

/-- Witness for `C2_theorem`: a stored cursor at day 100, today =
day 102, and a response whose single row is dated day 100 (inside the
planned window `[98, 102]`). -/
theorem C2_witness :
    (∀ r ∈ get_date_ranges (effective_from_date (some 100)) 102
        REPORTS_MARKETERS_PERIODIC_MAX_LIMIT,
      ∀ row ∈ ((fun _ : DateRange => (⟨some 1, [⟨none, ⟨100⟩⟩]⟩ : ReportResponse)) r).results,
        r.from_date ≤ row.metadata.fromDate ∧ row.metadata.fromDate ≤ r.to_date) ∧
    ((sync_performance (some 100) 102
        (fun _ => ⟨some 1, [⟨none, ⟨100⟩⟩]⟩)).stateWrites.getLast?
      = ((sync_performance (some 100) 102
          (fun _ => ⟨some 1, [⟨none, ⟨100⟩⟩]⟩)).records.getLast?).map
            PerfRecord.fromDate ∧
     List.Chain' (· < ·) (sync_performance (some 100) 102
        (fun _ => ⟨some 1, [⟨none, ⟨100⟩⟩]⟩)).stateWrites ∧
     ∀ w ∈ (sync_performance (some 100) 102
        (fun _ => ⟨some 1, [⟨none, ⟨100⟩⟩]⟩)).stateWrites,
       effective_from_date (some 100) ≤ w) := by
  have hin : ∀ r ∈ get_date_ranges (effective_from_date (some 100)) 102
      REPORTS_MARKETERS_PERIODIC_MAX_LIMIT,
      ∀ row ∈ ((fun _ : DateRange => (⟨some 1, [⟨none, ⟨100⟩⟩]⟩ : ReportResponse)) r).results,
        r.from_date ≤ row.metadata.fromDate ∧ row.metadata.fromDate ≤ r.to_date := by
    have hr : get_date_ranges (effective_from_date (some 100)) 102
        REPORTS_MARKETERS_PERIODIC_MAX_LIMIT = [⟨98, 102⟩] := by
      rw [show effective_from_date (some 100) = 98 from rfl]
      unfold REPORTS_MARKETERS_PERIODIC_MAX_LIMIT get_date_ranges
      rw [if_neg (by norm_num), getDateRangesLoop_unfold, if_pos (by norm_num),
        getDateRangesLoop_unfold, if_neg (by norm_num)]
      decide
    rw [hr]
    decide
  exact ⟨hin, C2_theorem (some 100) 102 (fun _ => ⟨some 1, [⟨none, ⟨100⟩⟩]⟩) hin⟩

/-- C5: with a stored checkpoint of 2021-01-01 and today = 2021-01-10,
the effective sync start is the checkpoint minus the fixed 2-day
re-fetch overlap, 2020-12-30, and with the 500-day maximum window the
planner produces exactly one window `[2020-12-30, 2021-01-10]`. -/
theorem C5_theorem :
    effective_from_date (some (daysFromCivil 2021 1 1)) = daysFromCivil 2020 12 30 ∧
    get_date_ranges (effective_from_date (some (daysFromCivil 2021 1 1)))
        (daysFromCivil 2021 1 10) REPORTS_MARKETERS_PERIODIC_MAX_LIMIT
      = [⟨daysFromCivil 2020 12 30, daysFromCivil 2021 1 10⟩] := by
  have h1 : daysFromCivil 2021 1 1 = 18628 := by decide
  have h2 : daysFromCivil 2020 12 30 = 18626 := by decide
  have h3 : daysFromCivil 2021 1 10 = 18637 := by decide
  rw [h1, h2, h3]
  have he : effective_from_date (some 18628) = 18626 := by decide
  rw [he]
  refine ⟨rfl, ?_⟩
  unfold REPORTS_MARKETERS_PERIODIC_MAX_LIMIT get_date_ranges
  rw [if_neg (by norm_num), getDateRangesLoop_unfold, if_pos (by norm_num),
    getDateRangesLoop_unfold, if_neg (by norm_num)]
  decide

/-- C8 as stated is false: a report response lacking `totalResults` does
not produce a warning and a continuing run — the comparison
`REPORTS_MARKETERS_PERIODIC_MAX_LIMIT < response.get('totalResults')`
at source line 205 is `int < None`, which raises a `TypeError`, so the
window's rows (here one row, dated day 5) are never processed and the
run aborts. -/
theorem C8_counterexample :
    syncPerfLoop (fun _ => ⟨none, [⟨none, ⟨5⟩⟩]⟩) [⟨0, 9⟩]
      = ⟨[], [], 0, some SyncError.typeError⟩ ∧
    ¬ (syncPerfLoop (fun _ => ⟨none, [⟨none, ⟨5⟩⟩]⟩) [⟨0, 9⟩]).error = none := by
  exact ⟨by decide, by decide⟩

/-- C8 (amended): the warning-and-proceed path applies to a response
whose `totalResults` is present and exceeds the 500-row limit: exactly
one warning is logged, the window's rows are emitted, and the loop
continues into the remaining windows.  When `totalResults` is absent,
the limit comparison instead raises a `TypeError` and the run aborts
before any of that window's rows are processed. -/
theorem C8_theorem (responses : DateRange → ReportResponse) (r : DateRange)
    (rest : List DateRange) (t : Int)
    (ht : (responses r).totalResults = some t)
    (hlim : REPORTS_MARKETERS_PERIODIC_MAX_LIMIT < t)
    (hne : (responses r).results ≠ []) :
    ((syncPerfLoop responses (r :: rest)).warnings
        = 1 + (syncPerfLoop responses rest).warnings ∧
     (syncPerfLoop responses (r :: rest)).records
        = (responses r).results.map parse_performance
            ++ (syncPerfLoop responses rest).records ∧
     (syncPerfLoop responses (r :: rest)).error
        = (syncPerfLoop responses rest).error) ∧
    (∀ responses2 : DateRange → ReportResponse, ∀ r2 : DateRange,
      ∀ rest2 : List DateRange, (responses2 r2).totalResults = none →
        syncPerfLoop responses2 (r2 :: rest2)
          = ⟨[], [], 0, some SyncError.typeError⟩) := by
  constructor
  · rcases hL : ((responses r).results.map parse_performance).getLast? with _ | last
    · exact absurd (List.map_eq_nil_iff.mp (List.getLast?_eq_none_iff.mp hL)) hne
    · rw [syncPerfLoop_cons_some responses r rest t last ht hL, if_pos hlim]
      exact ⟨rfl, rfl, rfl⟩
  · intro responses2 r2 rest2 h2
    exact syncPerfLoop_cons_none responses2 r2 rest2 h2

/-- Witness for `C8_theorem`: a window `[0, 9]` whose response reports
`totalResults = 501` with one row. -/
theorem C8_witness :
    (((fun _ : DateRange => (⟨some 501, [⟨none, ⟨3⟩⟩]⟩ : ReportResponse)) ⟨0, 9⟩).totalResults
        = some 501 ∧
     REPORTS_MARKETERS_PERIODIC_MAX_LIMIT < (501 : Int) ∧
     ((fun _ : DateRange => (⟨some 501, [⟨none, ⟨3⟩⟩]⟩ : ReportResponse)) ⟨0, 9⟩).results ≠ []) ∧
    (((syncPerfLoop (fun _ => ⟨some 501, [⟨none, ⟨3⟩⟩]⟩) [⟨0, 9⟩]).warnings
        = 1 + (syncPerfLoop (fun _ => ⟨some 501, [⟨none, ⟨3⟩⟩]⟩) []).warnings ∧
      (syncPerfLoop (fun _ => ⟨some 501, [⟨none, ⟨3⟩⟩]⟩) [⟨0, 9⟩]).records
        = ((fun _ : DateRange => (⟨some 501, [⟨none, ⟨3⟩⟩]⟩ : ReportResponse)) ⟨0, 9⟩).results.map
              parse_performance
            ++ (syncPerfLoop (fun _ => ⟨some 501, [⟨none, ⟨3⟩⟩]⟩) []).records ∧
      (syncPerfLoop (fun _ => ⟨some 501, [⟨none, ⟨3⟩⟩]⟩) [⟨0, 9⟩]).error
        = (syncPerfLoop (fun _ => ⟨some 501, [⟨none, ⟨3⟩⟩]⟩) []).error) ∧
     (∀ responses2 : DateRange → ReportResponse, ∀ r2 : DateRange,
       ∀ rest2 : List DateRange, (responses2 r2).totalResults = none →
         syncPerfLoop responses2 (r2 :: rest2)
           = ⟨[], [], 0, some SyncError.typeError⟩)) :=
  ⟨⟨rfl, by decide, by decide⟩,
   C8_theorem (fun _ => ⟨some 501, [⟨none, ⟨3⟩⟩]⟩) ⟨0, 9⟩ [] 501 rfl (by decide) (by decide)⟩

/-- C10: a report-window response whose `results` list is empty makes
`performance[-1]` raise an `IndexError` before the checkpoint is updated
or state is written: starting at that window, no record is emitted, no
state write happens (so the entity's stored cursor is left unchanged),
and the loop does not continue to later windows. -/
theorem C10_theorem (responses : DateRange → ReportResponse) (r : DateRange)
    (rest : List DateRange) (t : Int)
    (h1 : (responses r).totalResults = some t)
    (h2 : (responses r).results = []) :
    syncPerfLoop responses (r :: rest)
      = ⟨[], [], if REPORTS_MARKETERS_PERIODIC_MAX_LIMIT < t then 1 else 0,
          some SyncError.indexError⟩ :=
  syncPerfLoop_cons_empty responses r rest t h1 h2

/-- Witness for `C10_theorem`: an empty response (`totalResults = 0`,
no rows) for the window `[0, 1]`, followed by another window that is
never reached. -/
theorem C10_witness :
    (((fun _ : DateRange => (⟨some 0, []⟩ : ReportResponse)) ⟨0, 1⟩).totalResults = some 0 ∧
     ((fun _ : DateRange => (⟨some 0, []⟩ : ReportResponse)) ⟨0, 1⟩).results = []) ∧
    syncPerfLoop (fun _ => ⟨some 0, []⟩) [⟨0, 1⟩, ⟨2, 3⟩]
      = ⟨[], [], if REPORTS_MARKETERS_PERIODIC_MAX_LIMIT < (0 : Int) then 1 else 0,
          some SyncError.indexError⟩ :=
  ⟨⟨rfl, rfl⟩, C10_theorem (fun _ => ⟨some 0, []⟩) ⟨0, 1⟩ [⟨2, 3⟩] 0 rfl rfl⟩

/-! ## Rate limiter (source lines 200-238)

`sync_performance` timestamps each request (`last_request_start`,
`last_request_end`) and, after processing a window, sleeps
`30 - (time.time() - last_request_end)` whenever less than 30 time-units
have elapsed since the request ended.  The wall clock is modelled
deterministically: each window is described by the duration of its
request and the duration of the processing that follows it, the clock
advances by exactly those amounts, and `time.sleep(t)` advances it by
`t`.  The two `time.time()` reads in the source (condition and sleep
amount) happen with no modelled time in between. -/

/-- Observable timing of one report request: when it started, when it
ended, and the sleep executed after its window was processed (if any). -/
structure ReqTiming where
  reqStart : Rat
  reqEnd : Rat
  sleep : Option Rat
deriving DecidableEq, Repr

/-- The deterministic clock semantics of the window loop's timing logic:
`durs` lists `(request duration, processing duration)` per window and
`t0` is the clock when the first request starts. -/
def scheduleReqs : List (Rat × Rat) → Rat → List ReqTiming
  | [], _ => []
  | (req, proc) :: rest, t0 =>
    let e := t0 + req
    let t1 := e + proc
    if t1 - e < 30 then
      ⟨t0, e, some (30 - (t1 - e))⟩ :: scheduleReqs rest (t1 + (30 - (t1 - e)))
    else
      ⟨t0, e, none⟩ :: scheduleReqs rest t1

/-- The first scheduled request starts at the initial clock value. -/
theorem scheduleReqs_head_start (durs : List (Rat × Rat)) (t0 : Rat) :
    ∀ T, (scheduleReqs durs t0).head? = some T → T.reqStart = t0 := by
  cases durs with
  | nil =>
    intro T hT
    simp [scheduleReqs] at hT
  | cons d rest =>
    obtain ⟨req, proc⟩ := d
    intro T hT
    simp only [scheduleReqs] at hT
    split at hT <;>
      (simp only [List.head?_cons, Option.some.injEq] at hT
       subst hT
       rfl)

/-- C6: in the deterministic clock model of the loop's pacing logic, the
start of each report request is at least 30 time-units after the end of
the previous one, and every executed sleep has a strictly positive
duration (when 30 time-units have already elapsed, no sleep occurs). -/
theorem C6_theorem : ∀ (durs : List (Rat × Rat)) (t0 : Rat),
    List.Chain' (fun a b => a.reqEnd + 30 ≤ b.reqStart) (scheduleReqs durs t0) ∧
    ∀ T ∈ scheduleReqs durs t0, ∀ s, T.sleep = some s → 0 < s := by
  intro durs
  induction durs with
  | nil =>
    intro t0
    exact ⟨by simp [scheduleReqs], by simp [scheduleReqs]⟩
  | cons d rest ih =>
    intro t0
    obtain ⟨req, proc⟩ := d
    by_cases hs : (t0 + req + proc) - (t0 + req) < 30
    · simp only [scheduleReqs, if_pos hs]
      constructor
      · rw [List.chain'_cons']
        refine ⟨?_, (ih _).1⟩
        intro b hb
        have hb' := scheduleReqs_head_start rest _ b (Option.mem_def.mp hb)
        rw [hb']
        show t0 + req + 30 ≤ t0 + req + proc + (30 - (t0 + req + proc - (t0 + req)))
        linarith
      · intro T hT s hsleep
        rcases List.mem_cons.mp hT with hT | hT
        · subst hT
          simp only [Option.some.injEq] at hsleep
          subst hsleep
          linarith
        · exact (ih _).2 T hT s hsleep
    · simp only [scheduleReqs, if_neg hs]
      constructor
      · rw [List.chain'_cons']
        refine ⟨?_, (ih _).1⟩
        intro b hb
        have hb' := scheduleReqs_head_start rest _ b (Option.mem_def.mp hb)
        rw [hb']
        show t0 + req + 30 ≤ t0 + req + proc
        linarith
      · intro T hT s hsleep
        rcases List.mem_cons.mp hT with hT | hT
        · subst hT
          simp at hsleep
        · exact (ih _).2 T hT s hsleep

/-! ## Request gateway retry policy (source lines 52-72)

`request` raises `requests.exceptions.HTTPError` (a
`RequestException`) on any status ≥ 400 and is wrapped in
`backoff.on_exception(backoff.constant, RequestException,
jitter=backoff.random_jitter, max_tries=5,
giveup=singer.requests.giveup_on_http_4xx_except_429, interval=30)`. -/

/-- Outcome of a single HTTP attempt as the retry layer observes it:
a successful response, an `HTTPError` carrying a status ≥ 400, or a
network-level `RequestException`. -/
inductive AttemptResult where
  | success
  | httpError (status : Nat)
  | networkError
deriving DecidableEq, Repr

/-- Predicate `singer.requests.giveup_on_http_4xx_except_429`: stop retrying
exactly when the attempt failed with an HTTP 4xx status other than
429.  Modelled from the spec: the predicate lives in the external
`singer-python` dependency, not under src; the spec describes it as
"HTTP 4xx other than 429: fatal immediately, no retry". -/
def giveup_on_http_4xx_except_429 : AttemptResult → Bool
  | AttemptResult.httpError status => decide (400 ≤ status ∧ status < 500 ∧ status ≠ 429)
  | _ => false

/-- Modelled from the spec: the `backoff.on_exception` combinator
configured at source lines 52-57 — the `backoff` library is an external
dependency, not under src.  `attempts k` is the outcome of the `k`-th
attempt and `jitter k` the random jitter added to the `k`-th wait;
`remaining` counts the tries still allowed (`max_tries` at the top
call).  A successful attempt returns; a failure for which the giveup
predicate holds, or that exhausts the allowed tries, propagates;
otherwise the combinator waits `30 + jitter` (constant interval plus
random jitter) and retries.  Returns (number of attempts made, final
outcome, list of waits between consecutive attempts). -/
def backoffRun (attempts : Nat → AttemptResult) (jitter : Nat → Rat) :
    Nat → Nat → Nat × AttemptResult × List Rat
  | _, 0 => (0, AttemptResult.networkError, [])
  | i, 1 => (i + 1, attempts i, [])
  | i, n + 2 =>
    match attempts i with
    | AttemptResult.success => (i + 1, AttemptResult.success, [])
    | r =>
      if giveup_on_http_4xx_except_429 r then (i + 1, r, [])
      else
        ((backoffRun attempts jitter (i + 1) (n + 1)).1,
         (backoffRun attempts jitter (i + 1) (n + 1)).2.1,
         (30 + jitter i) :: (backoffRun attempts jitter (i + 1) (n + 1)).2.2)

/-- One call through the decorated `request`: `max_tries = 5`. -/
def request_with_retries (attempts : Nat → AttemptResult) (jitter : Nat → Rat) :
    Nat × AttemptResult × List Rat :=
  backoffRun attempts jitter 0 5

/-- A failing attempt that the giveup predicate rejects is not retried:
the combinator returns it after this one try. -/
theorem backoffRun_giveup (attempts : Nat → AttemptResult) (jitter : Nat → Rat)
    (i n : Nat) (s : Nat) (hA : attempts i = AttemptResult.httpError s)
    (hgu : giveup_on_http_4xx_except_429 (AttemptResult.httpError s) = true) :
    backoffRun attempts jitter i (n + 2) = (i + 1, AttemptResult.httpError s, []) := by
  simp only [backoffRun, hA, hgu]
  simp

/-- A transient failing attempt (neither success nor giveup) waits
`30 + jitter` and retries. -/
theorem backoffRun_step (attempts : Nat → AttemptResult) (jitter : Nat → Rat)
    (i n : Nat) (hne : attempts i ≠ AttemptResult.success)
    (hgu : giveup_on_http_4xx_except_429 (attempts i) = false) :
    backoffRun attempts jitter i (n + 2) =
      ((backoffRun attempts jitter (i + 1) (n + 1)).1,
       (backoffRun attempts jitter (i + 1) (n + 1)).2.1,
       (30 + jitter i) :: (backoffRun attempts jitter (i + 1) (n + 1)).2.2) := by
  cases hA : attempts i with
  | success => exact absurd hA hne
  | httpError s =>
    rw [hA] at hgu
    simp only [backoffRun, hA, hgu]
    simp
  | networkError =>
    rw [hA] at hgu
    simp only [backoffRun, hA, hgu]
    simp

/-- C7: under the modelled retry policy, an HTTP 4xx response other than
429 on the first attempt propagates immediately, carrying its status,
with no retry and no wait; while a run of transient failures (network
errors, 429, 5xx) is retried with waits of `30 + jitter` each (hence in
`[30, 31]` for jitter in `[0, 1]`) up to 5 attempts total, after which
the last attempt's error propagates. -/
theorem C7_theorem (attempts : Nat → AttemptResult) (jitter : Nat → Rat)
    (hj : ∀ k, 0 ≤ jitter k ∧ jitter k ≤ 1) :
    (∀ s, 400 ≤ s → s < 500 → s ≠ 429 → attempts 0 = AttemptResult.httpError s →
      request_with_retries attempts jitter = (1, AttemptResult.httpError s, [])) ∧
    ((∀ k, k < 5 → attempts k ≠ AttemptResult.success ∧
        giveup_on_http_4xx_except_429 (attempts k) = false) →
      (request_with_retries attempts jitter).1 = 5 ∧
      (request_with_retries attempts jitter).2.1 = attempts 4 ∧
      (request_with_retries attempts jitter).2.2
        = [30 + jitter 0, 30 + jitter 1, 30 + jitter 2, 30 + jitter 3] ∧
      ∀ w ∈ (request_with_retries attempts jitter).2.2, 30 ≤ w ∧ w ≤ 31) := by
  constructor
  · intro s h4 h5 h429 hA
    have hgu : giveup_on_http_4xx_except_429 (AttemptResult.httpError s) = true :=
      decide_eq_true ⟨h4, h5, h429⟩
    unfold request_with_retries
    rw [show (5 : Nat) = 3 + 2 from rfl, backoffRun_giveup attempts jitter 0 3 s hA hgu]
  · intro htrans
    have e5 : backoffRun attempts jitter 4 1 = (5, attempts 4, []) := rfl
    have e4 := backoffRun_step attempts jitter 3 0 (htrans 3 (by omega)).1
      (htrans 3 (by omega)).2
    have e3 := backoffRun_step attempts jitter 2 1 (htrans 2 (by omega)).1
      (htrans 2 (by omega)).2
    have e2 := backoffRun_step attempts jitter 1 2 (htrans 1 (by omega)).1
      (htrans 1 (by omega)).2
    have e1 := backoffRun_step attempts jitter 0 3 (htrans 0 (by omega)).1
      (htrans 0 (by omega)).2
    norm_num at e1 e2 e3 e4
    have hall : request_with_retries attempts jitter
        = (5, attempts 4, [30 + jitter 0, 30 + jitter 1, 30 + jitter 2, 30 + jitter 3]) := by
      unfold request_with_retries
      rw [e1, e2, e3, e4, e5]
    rw [hall]
    refine ⟨rfl, rfl, rfl, ?_⟩
    intro w hw
    have h0 := hj 0
    have h1 := hj 1
    have h2 := hj 2
    have h3 := hj 3
    simp only [List.mem_cons, List.not_mem_nil, or_false] at hw
    rcases hw with hw | hw | hw | hw <;>
      (subst hw
       constructor <;> linarith)

/-- Witness for `C7_theorem`: every attempt is a network error and the
jitter is always 0; the call makes 5 attempts with waits of exactly 30
between consecutive attempts. -/
theorem C7_witness :
    (∀ k : Nat, 0 ≤ (fun _ : Nat => (0 : Rat)) k ∧ (fun _ : Nat => (0 : Rat)) k ≤ 1) ∧
    (request_with_retries (fun _ => AttemptResult.networkError) (fun _ => 0)).1 = 5 ∧
    (request_with_retries (fun _ => AttemptResult.networkError) (fun _ => 0)).2.1
      = AttemptResult.networkError ∧
    (request_with_retries (fun _ => AttemptResult.networkError) (fun _ => 0)).2.2
      = [30, 30, 30, 30] := by
  have hj : ∀ k : Nat, 0 ≤ (fun _ : Nat => (0 : Rat)) k ∧ (fun _ : Nat => (0 : Rat)) k ≤ 1 :=
    fun _ => ⟨le_refl 0, by norm_num⟩
  have h := (C7_theorem (fun _ => AttemptResult.networkError) (fun _ => (0 : Rat)) hj).2
    (fun k _ => ⟨by decide, rfl⟩)
  refine ⟨hj, h.1, h.2.1, ?_⟩
  rw [h.2.2.1]
  norm_num

end TapOutbrain
